import Mathlib

/-!
# Verification of the Namada governance record decoder/formatter

This development embeds the five decode-and-format operations of the
`namada_query_api_py` library (`proposal_parse`, `votes_parse`,
`proposal_result_parse`, `commission_pair_parse`, `address_parse`,
all in `src/lib.rs`) together with the Borsh-style binary codec they rely
on, and proves the documented properties of their behaviour.

Bytes are modelled as `List Nat` (each entry a byte value); decoders are
functions from a byte list to an optional value paired with the unconsumed
tail, mirroring a cursor threaded through recursive descent.  The
surrounding SDK pieces that the library calls into (the binary grammar of
each record kind, the status state machine, the textual renderings of
addresses, hashes and amounts) are not part of the repository's own code;
they are modelled from the specification's description of them, and each
such definition is marked accordingly in its doc comment.
-/

set_option maxRecDepth 40000

namespace NamadaQuery

/-- A byte buffer: a list of byte values. -/
abbrev Bytes := List Nat

/-- A decoder consumes a front portion of a byte buffer and returns the
decoded value together with the unconsumed tail, or fails. -/
def Decoder (α : Type) : Type := Bytes → Option (α × Bytes)

/-- Decoder that consumes nothing and returns a fixed value. -/
def pureD {α : Type} (a : α) : Decoder α := fun b => some (a, b)

/-- Decoder that always fails (invalid discriminant, etc.). -/
def failD {α : Type} : Decoder α := fun _ => none

/-- Sequencing of decoders: run the first, feed its tail to the second. -/
def bindD {α β : Type} (p : Decoder α) (f : α → Decoder β) : Decoder β :=
  fun b =>
    match p b with
    | some (a, rest) => f a rest
    | none => none

/-- Read one byte off the front of the buffer. -/
def readByte : Decoder Nat :=
  fun b =>
    match b with
    | [] => none
    | x :: rest => some (x, rest)

/-- Read exactly `n` bytes off the front of the buffer. -/
def readBytes : Nat → Decoder Bytes
  | 0 => pureD []
  | n + 1 => bindD readByte fun x => bindD (readBytes n) fun l => pureD (x :: l)

/-- Little-endian value of a byte list (low byte first). -/
def leVal (l : Bytes) : Nat := l.foldr (fun b acc => b + 256 * acc) 0

/-- Little-endian encoding of `x` in `n` bytes. -/
def encLE : Nat → Nat → Bytes
  | 0, _ => []
  | n + 1, x => x % 256 :: encLE n (x / 256)

/-- Read an `n`-byte little-endian unsigned integer. -/
def readLE (n : Nat) : Decoder Nat :=
  bindD (readBytes n) fun l => pureD (leVal l)

/-- Read `n` successive values with decoder `p`. -/
def readN {α : Type} (p : Decoder α) : Nat → Decoder (List α)
  | 0 => pureD []
  | n + 1 => bindD p fun a => bindD (readN p n) fun l => pureD (a :: l)

/-- Borsh `u64`: 8 bytes little-endian. -/
def readU64 : Decoder Nat := readLE 8

/-- Borsh `u32`: 4 bytes little-endian (used as length prefix). -/
def readU32 : Decoder Nat := readLE 4

/-- Borsh sequence: `u32` length prefix followed by that many elements. -/
def readVec {α : Type} (p : Decoder α) : Decoder (List α) :=
  bindD readU32 fun n => readN p n

/-- Borsh option: one presence byte (0 or 1, anything else is an error)
followed by the value when present. -/
def readOption {α : Type} (p : Decoder α) : Decoder (Option α) :=
  bindD readByte fun t =>
    if t = 0 then pureD none
    else if t = 1 then bindD p fun a => pureD (some a)
    else failD

/-- Borsh string payload: `u32` length prefix followed by that many bytes. -/
def readStrBytes : Decoder Bytes :=
  bindD readU32 fun n => readBytes n

/- ## Encoders (the wire form of each primitive) -/

/-- Encoding of a byte string: `u32` length prefix then the bytes. -/
def encStrBytes (l : Bytes) : Bytes := encLE 4 l.length ++ l

/-- A decoder is monotone when its verdict depends only on the bytes it
consumes: appending extra bytes appends them, untouched, to the tail. -/
def Mono {α : Type} (p : Decoder α) : Prop :=
  ∀ b v r m, p b = some (v, r) → p (b ++ m) = some (v, r ++ m)

/- ## Domain model

The typed values the five operations decode, mirroring the SDK types used
by `src/lib.rs` as the specification describes them. -/

/-- Modelled from the spec: an `Address` is an opaque on-chain identifier
carried on the wire as a length-prefixed byte sequence with a canonical
text rendering (the SDK's `Address` type is outside this repository). -/
structure Address where
  bytes : Bytes
deriving DecidableEq

/-- Modelled from the spec: a `Hash` is a fixed-length (32-byte) digest. -/
def Hash : Type := Bytes

/-- `AddRemove<T>`: union of `Add(T)` and `Remove(T)`. -/
inductive AddRemove (α : Type) : Type
  | Add (a : α)
  | Remove (a : α)
deriving DecidableEq

/-- Modelled from the spec: a `PaymentTarget` exposes a single logical
address-like identifier (`target`), carried as a length-prefixed byte
sequence (the SDK's PGF target type is outside this repository). -/
structure PGFTarget where
  target : Bytes
deriving DecidableEq

/-- `PGFAction`: union of `Continuous(AddRemove<PaymentTarget>)` and
`Retro(PaymentTarget)`. -/
inductive PGFAction : Type
  | Continuous (ar : AddRemove PGFTarget)
  | Retro (t : PGFTarget)
deriving DecidableEq

/-- `ProposalType`: tagged union over `Default(optional Hash)`,
`PGFSteward(sequence of AddRemove<Address>)` and
`PGFPayment(sequence of PGFAction)`. -/
inductive ProposalType : Type
  | Default (h : Option Bytes)
  | PGFSteward (l : List (AddRemove Address))
  | PGFPayment (l : List PGFAction)
deriving DecidableEq

/-- Modelled from the spec: a stored governance proposal with its id,
type, author, content mapping and the three lifecycle epochs (the SDK's
`StorageProposal` is outside this repository; field order follows the
spec's data-model declaration). -/
structure StorageProposal where
  id : Nat
  type : ProposalType
  author : Address
  content : List (Bytes × Bytes)
  voting_start_epoch : Nat
  voting_end_epoch : Nat
  grace_epoch : Nat
deriving DecidableEq

/-- `ProposalVote`: one of Yay, Nay, Abstain. -/
inductive ProposalVote : Type
  | Yay
  | Nay
  | Abstain
deriving DecidableEq

/-- A governance vote: validator, delegator and the vote value. -/
structure Vote where
  validator : Address
  delegator : Address
  data : ProposalVote
deriving DecidableEq

/-- `TallyResult`: Passed or Rejected. -/
inductive TallyResult : Type
  | Passed
  | Rejected
deriving DecidableEq

/-- `TallyType`: the three tally rules. -/
inductive TallyType : Type
  | TwoThirds
  | OneHalfOverOneThird
  | LessOneHalfOverOneThirdNay
deriving DecidableEq

/-- Modelled from the spec: a tally outcome with the four voting-power
totals, each an unsigned integer carried in a fixed 32-byte (256-bit)
little-endian wire slot and rendered in full base-10 precision. -/
structure ProposalResult where
  result : TallyResult
  tally_type : TallyType
  total_voting_power : Nat
  total_yay_power : Nat
  total_nay_power : Nat
  total_abstain_power : Nat
deriving DecidableEq

/-- Modelled from the spec: a validator's commission pair, two decimal
fixed-point values each carried in a 32-byte wire slot. -/
structure CommissionPair where
  commission_rate : Nat
  max_commission_change_per_epoch : Nat
deriving DecidableEq

/- ## Decoders for the domain types

Modelled from the spec: the Borsh-style binary grammar (discriminant-
prefixed unions, length-prefixed sequences, presence-flagged options,
fixed-width little-endian scalars) is the external Binary Codec; the SDK
derives one such decoder per record kind. -/

/-- Decode an address: length-prefixed byte sequence. -/
def readAddress : Decoder Address :=
  bindD readStrBytes fun l => pureD ⟨l⟩

/-- Decode a 32-byte hash digest. -/
def readHash : Decoder Bytes := readBytes 32

/-- Decode an `AddRemove<T>` union: discriminant 0 for Add, 1 for Remove. -/
def readAddRemove {α : Type} (p : Decoder α) : Decoder (AddRemove α) :=
  bindD readByte fun t =>
    if t = 0 then bindD p fun a => pureD (AddRemove.Add a)
    else if t = 1 then bindD p fun a => pureD (AddRemove.Remove a)
    else failD

/-- Decode a payment target. -/
def readTarget : Decoder PGFTarget :=
  bindD readStrBytes fun l => pureD ⟨l⟩

/-- Decode a `PGFAction` union: discriminant 0 for Continuous, 1 for
Retro. -/
def readPGFAction : Decoder PGFAction :=
  bindD readByte fun t =>
    if t = 0 then bindD (readAddRemove readTarget) fun ar =>
      pureD (PGFAction.Continuous ar)
    else if t = 1 then bindD readTarget fun tg => pureD (PGFAction.Retro tg)
    else failD

/-- Decode a `ProposalType` union: discriminant 0 for Default, 1 for
PGFSteward, 2 for PGFPayment. -/
def readProposalType : Decoder ProposalType :=
  bindD readByte fun t =>
    if t = 0 then bindD (readOption readHash) fun h =>
      pureD (ProposalType.Default h)
    else if t = 1 then bindD (readVec (readAddRemove readAddress)) fun l =>
      pureD (ProposalType.PGFSteward l)
    else if t = 2 then bindD (readVec readPGFAction) fun l =>
      pureD (ProposalType.PGFPayment l)
    else failD

/-- Decode one key/value entry of the content mapping. -/
def readContentEntry : Decoder (Bytes × Bytes) :=
  bindD readStrBytes fun k => bindD readStrBytes fun v => pureD (k, v)

/-- Decode the content mapping: a length-prefixed sequence of entries. -/
def readContent : Decoder (List (Bytes × Bytes)) := readVec readContentEntry

/-- Decode a stored proposal: its fields in declared order. -/
def readStorageProposal : Decoder StorageProposal :=
  bindD readU64 fun i =>
  bindD readProposalType fun ty =>
  bindD readAddress fun au =>
  bindD readContent fun c =>
  bindD readU64 fun s =>
  bindD readU64 fun e =>
  bindD readU64 fun g =>
  pureD ⟨i, ty, au, c, s, e, g⟩

/-- Decode a `ProposalVote` union: 0 Yay, 1 Nay, 2 Abstain. -/
def readProposalVote : Decoder ProposalVote :=
  bindD readByte fun t =>
    if t = 0 then pureD ProposalVote.Yay
    else if t = 1 then pureD ProposalVote.Nay
    else if t = 2 then pureD ProposalVote.Abstain
    else failD

/-- Decode one vote: validator, delegator, data. -/
def readVote : Decoder Vote :=
  bindD readAddress fun va =>
  bindD readAddress fun de =>
  bindD readProposalVote fun d =>
  pureD ⟨va, de, d⟩

/-- Decode a vote sequence. -/
def readVotes : Decoder (List Vote) := readVec readVote

/-- Decode a `TallyResult` union: 0 Passed, 1 Rejected. -/
def readTallyResult : Decoder TallyResult :=
  bindD readByte fun t =>
    if t = 0 then pureD TallyResult.Passed
    else if t = 1 then pureD TallyResult.Rejected
    else failD

/-- Decode a `TallyType` union: 0, 1, 2 for the three rules. -/
def readTallyType : Decoder TallyType :=
  bindD readByte fun t =>
    if t = 0 then pureD TallyType.TwoThirds
    else if t = 1 then pureD TallyType.OneHalfOverOneThird
    else if t = 2 then pureD TallyType.LessOneHalfOverOneThirdNay
    else failD

/-- Decode a 256-bit voting-power amount. -/
def readAmount : Decoder Nat := readLE 32

/-- Decode a proposal tally result: result, tally type, four totals. -/
def readProposalResult : Decoder ProposalResult :=
  bindD readTallyResult fun re =>
  bindD readTallyType fun tt =>
  bindD readAmount fun vp =>
  bindD readAmount fun yp =>
  bindD readAmount fun np =>
  bindD readAmount fun ap =>
  pureD ⟨re, tt, vp, yp, np, ap⟩

/-- Decode a 256-bit decimal fixed-point slot. -/
def readDec : Decoder Nat := readLE 32

/-- Decode a commission pair: rate then max change per epoch. -/
def readCommissionPair : Decoder CommissionPair :=
  bindD readDec fun cr =>
  bindD readDec fun mc =>
  pureD ⟨cr, mc⟩

/- ## Encoders: the canonical wire form of each domain value -/

/-- Encode an address. -/
def encodeAddress (a : Address) : Bytes := encStrBytes a.bytes

/-- Encode an optional hash: presence flag then the 32 digest bytes. -/
def encodeOptionHash : Option Bytes → Bytes
  | none => [0]
  | some h => 1 :: h

/-- Encode an `AddRemove` over a given payload encoder. -/
def encodeAddRemove {α : Type} (enc : α → Bytes) : AddRemove α → Bytes
  | .Add a => 0 :: enc a
  | .Remove a => 1 :: enc a

/-- Encode a payment target. -/
def encodeTarget (t : PGFTarget) : Bytes := encStrBytes t.target

/-- Encode a `PGFAction`. -/
def encodePGFAction : PGFAction → Bytes
  | .Continuous ar => 0 :: encodeAddRemove encodeTarget ar
  | .Retro t => 1 :: encodeTarget t

/-- Encode a sequence: length prefix then the element encodings. -/
def encodeVec {α : Type} (enc : α → Bytes) (l : List α) : Bytes :=
  encLE 4 l.length ++ (l.map enc).flatten

/-- Encode a `ProposalType`. -/
def encodeProposalType : ProposalType → Bytes
  | .Default h => 0 :: encodeOptionHash h
  | .PGFSteward l => 1 :: encodeVec (encodeAddRemove encodeAddress) l
  | .PGFPayment l => 2 :: encodeVec encodePGFAction l

/-- Encode one content entry. -/
def encodeContentEntry (kv : Bytes × Bytes) : Bytes :=
  encStrBytes kv.1 ++ encStrBytes kv.2

/-- Encode a stored proposal. -/
def encodeStorageProposal (p : StorageProposal) : Bytes :=
  encLE 8 p.id ++ encodeProposalType p.type ++ encodeAddress p.author ++
    encodeVec encodeContentEntry p.content ++ encLE 8 p.voting_start_epoch ++
    encLE 8 p.voting_end_epoch ++ encLE 8 p.grace_epoch

/-- Encode a `ProposalVote`. -/
def encodeProposalVote : ProposalVote → Bytes
  | .Yay => [0]
  | .Nay => [1]
  | .Abstain => [2]

/-- Encode one vote. -/
def encodeVote (v : Vote) : Bytes :=
  encodeAddress v.validator ++ encodeAddress v.delegator ++
    encodeProposalVote v.data

/-- Encode a vote sequence. -/
def encodeVotes (l : List Vote) : Bytes := encodeVec encodeVote l

/-- Encode a `TallyResult`. -/
def encodeTallyResult : TallyResult → Bytes
  | .Passed => [0]
  | .Rejected => [1]

/-- Encode a `TallyType`. -/
def encodeTallyType : TallyType → Bytes
  | .TwoThirds => [0]
  | .OneHalfOverOneThird => [1]
  | .LessOneHalfOverOneThirdNay => [2]

/-- Encode a proposal tally result. -/
def encodeProposalResult (r : ProposalResult) : Bytes :=
  encodeTallyResult r.result ++ encodeTallyType r.tally_type ++
    encLE 32 r.total_voting_power ++ encLE 32 r.total_yay_power ++
    encLE 32 r.total_nay_power ++ encLE 32 r.total_abstain_power

/-- Encode a commission pair. -/
def encodeCommissionPair (c : CommissionPair) : Bytes :=
  encLE 32 c.commission_rate ++ encLE 32 c.max_commission_change_per_epoch

/- ## Well-formedness of domain values

The bounds under which a value fits its wire slots (length prefixes fit
in a `u32`, scalars in their fixed width). -/

/-- An address fits its length prefix. -/
def WFAddress (a : Address) : Prop := a.bytes.length < 2 ^ 32

/-- A hash is exactly 32 bytes. -/
def WFHash (h : Bytes) : Prop := h.length = 32

/-- A payment target fits its length prefix. -/
def WFTarget (t : PGFTarget) : Prop := t.target.length < 2 ^ 32

/-- Well-formedness of an `AddRemove` value. -/
def WFAddRemove {α : Type} (WF : α → Prop) : AddRemove α → Prop
  | .Add a => WF a
  | .Remove a => WF a

/-- Well-formedness of a `PGFAction`. -/
def WFPGFAction : PGFAction → Prop
  | .Continuous ar => WFAddRemove WFTarget ar
  | .Retro t => WFTarget t

/-- Well-formedness of a `ProposalType`. -/
def WFProposalType : ProposalType → Prop
  | .Default none => True
  | .Default (some h) => WFHash h
  | .PGFSteward l =>
      l.length < 2 ^ 32 ∧ ∀ x ∈ l, WFAddRemove WFAddress x
  | .PGFPayment l => l.length < 2 ^ 32 ∧ ∀ x ∈ l, WFPGFAction x

/-- Well-formedness of a content entry. -/
def WFContentEntry (kv : Bytes × Bytes) : Prop :=
  kv.1.length < 2 ^ 32 ∧ kv.2.length < 2 ^ 32

/-- Well-formedness of a stored proposal. -/
def WFStorageProposal (p : StorageProposal) : Prop :=
  p.id < 2 ^ 64 ∧ WFProposalType p.type ∧ WFAddress p.author ∧
    p.content.length < 2 ^ 32 ∧ (∀ kv ∈ p.content, WFContentEntry kv) ∧
    p.voting_start_epoch < 2 ^ 64 ∧ p.voting_end_epoch < 2 ^ 64 ∧
    p.grace_epoch < 2 ^ 64

/-- Well-formedness of a vote. -/
def WFVote (v : Vote) : Prop := WFAddress v.validator ∧ WFAddress v.delegator

/-- Well-formedness of a vote sequence. -/
def WFVotes (l : List Vote) : Prop :=
  l.length < 2 ^ 32 ∧ ∀ v ∈ l, WFVote v

/-- Well-formedness of a proposal tally result. -/
def WFProposalResult (r : ProposalResult) : Prop :=
  r.total_voting_power < 2 ^ 256 ∧ r.total_yay_power < 2 ^ 256 ∧
    r.total_nay_power < 2 ^ 256 ∧ r.total_abstain_power < 2 ^ 256

/-- Well-formedness of a commission pair. -/
def WFCommissionPair (c : CommissionPair) : Prop :=
  c.commission_rate < 2 ^ 256 ∧ c.max_commission_change_per_epoch < 2 ^ 256

/- ## Whole-buffer decoding

Borsh's `try_from_slice`: run the decoder and demand that the whole
buffer was consumed; any unconsumed tail is a decode error. -/

/-- Decode a value from the whole buffer; trailing bytes are an error. -/
def tryFromSlice {α : Type} (p : Decoder α) (b : Bytes) : Option α :=
  match p b with
  | some (v, []) => some v
  | _ => none

/- ## Canonicalizer / Formatter

The display layer of `src/lib.rs`: rendering of the domain values into
the output mapping and its serialized text. -/

/-- Modelled from the spec: the canonical text rendering of a raw byte
string (the Binary Codec's string rendering), one character per byte. -/
def bytesDisplay (l : Bytes) : String := String.mk (l.map Char.ofNat)

/-- Modelled from the spec: the canonical textual form of an address (the
SDK's address rendering is outside this repository). -/
def addressDisplay (a : Address) : String := bytesDisplay a.bytes

/-- One hexadecimal digit, upper case. -/
def hexChar (n : Nat) : Char :=
  Char.ofNat (if n < 10 then 48 + n else 55 + n)

/-- Modelled from the spec: the textual form of a hash digest (the SDK
renders digests as upper-case hexadecimal). -/
def hashDisplay (h : Bytes) : String :=
  String.mk (h.foldr (fun b acc => hexChar (b / 16 % 16) :: hexChar (b % 16) :: acc) [])

/-- Modelled from the spec: the target identifier a `PaymentTarget`
exposes, as text (the `target()` accessor of the SDK type). -/
def targetDisplay (t : PGFTarget) : String := bytesDisplay t.target

/-- Modelled from the spec: the display label of a proposal type (the
SDK's display of `ProposalType`). -/
def typeDisplay : ProposalType → String
  | .Default _ => "Default"
  | .PGFSteward _ => "PGF steward"
  | .PGFPayment _ => "PGF payment"

/-- Modelled from the spec: the proposal lifecycle states of the
governance status state machine. -/
inductive ProposalStatus : Type
  | Pending
  | OnGoing
  | Ended
deriving DecidableEq

/-- Modelled from the spec: the status state machine, a pure function of
the current epoch and the proposal's epoch bounds — before the voting
start it is the not-yet-started state, during the voting window the
in-progress state, and from the voting end on the terminal state.  It
takes no tally information: its only inputs are the epochs. -/
def statusOf (current s e _g : Nat) : ProposalStatus :=
  if current < s then ProposalStatus.Pending
  else if current < e then ProposalStatus.OnGoing
  else ProposalStatus.Ended

/-- The status the SDK derives for a proposal at a given current epoch
(`proposal.get_status(Epoch(current_epoch))` in `src/lib.rs`). -/
def StorageProposal.get_status (p : StorageProposal) (current_epoch : Nat) :
    ProposalStatus :=
  statusOf current_epoch p.voting_start_epoch p.voting_end_epoch p.grace_epoch

/-- Modelled from the spec: display labels of the status states. -/
def statusDisplay : ProposalStatus → String
  | .Pending => "pending"
  | .OnGoing => "on-going"
  | .Ended => "ended"

/-- Lexicographic comparison of character lists by scalar value. -/
def charListLt : List Char → List Char → Bool
  | [], [] => false
  | [], _ :: _ => true
  | _ :: _, [] => false
  | c :: cs, d :: ds =>
    if c.toNat < d.toNat then true
    else if d.toNat < c.toNat then false
    else charListLt cs ds

/-- The string ordering of `BTreeMap<String, _>`: lexicographic. -/
def strLt (s t : String) : Bool := charListLt s.data t.data

/-- Sorted-map insertion: the `BTreeMap::insert` used for the output
mappings, keeping keys in increasing order and overwriting duplicates. -/
def btreeInsert : List (String × String) → String → String → List (String × String)
  | [], k, v => [(k, v)]
  | (k', v') :: rest, k, v =>
    if strLt k k' then (k, v) :: (k', v') :: rest
    else if strLt k' k then (k', v') :: btreeInsert rest k v
    else (k, v) :: rest

/-- The canonical (sorted, deduplicated) form of the decoded content
mapping, as `BTreeMap` deserialization produces it. -/
def contentCanon (l : List (Bytes × Bytes)) : List (String × String) :=
  l.foldl (fun m kv => btreeInsert m (bytesDisplay kv.1) (bytesDisplay kv.2)) []

/-- `format_proposal_data` from `src/lib.rs`: the display string of the
active `ProposalType` variant. -/
def format_proposal_data : ProposalType → String
  | ProposalType.Default (some hash) => "Hash: " ++ hashDisplay hash
  | ProposalType.Default none => ""
  | ProposalType.PGFSteward addresses =>
      String.intercalate ", " (addresses.map fun ar =>
        match ar with
        | AddRemove.Add a => "Add(" ++ addressDisplay a ++ ")"
        | AddRemove.Remove a => "Remove(" ++ addressDisplay a ++ ")")
  | ProposalType.PGFPayment actions =>
      String.intercalate ", " (actions.map fun action =>
        match action with
        | PGFAction.Continuous ar =>
          match ar with
          | AddRemove.Add t => "Add(" ++ targetDisplay t ++ ")"
          | AddRemove.Remove t => "Remove(" ++ targetDisplay t ++ ")"
        | PGFAction.Retro t => "Retro(" ++ targetDisplay t ++ ")")

/-- The `ProposalJson` output record of `src/lib.rs` (serde serializes
its fields in this declared order). -/
structure ProposalJson where
  id : Nat
  proposal_type : String
  author : String
  content : List (String × String)
  voting_start_epoch : Nat
  voting_end_epoch : Nat
  grace_epoch : Nat
  status : String
  data : String
deriving DecidableEq

/-- Building the `ProposalJson` value from a decoded proposal and the
caller-supplied current epoch, as `proposal_parse` does. -/
def proposalJson (p : StorageProposal) (current_epoch : Nat) : ProposalJson :=
  ⟨p.id, typeDisplay p.type, addressDisplay p.author, contentCanon p.content,
    p.voting_start_epoch, p.voting_end_epoch, p.grace_epoch,
    statusDisplay (p.get_status current_epoch), format_proposal_data p.type⟩

/-- A JSON value as serde renders the outputs here: a string, an
unsigned number, or a string-to-string object. -/
inductive JVal : Type
  | s (v : String)
  | n (v : Nat)
  | m (v : List (String × String))
deriving DecidableEq

/-- The (key, value) fields of the proposal output object, in serde's
declared-field order. -/
def ProposalJson.fields (p : ProposalJson) : List (String × JVal) :=
  [("id", JVal.n p.id), ("proposal_type", JVal.s p.proposal_type),
    ("author", JVal.s p.author), ("content", JVal.m p.content),
    ("voting_start_epoch", JVal.n p.voting_start_epoch),
    ("voting_end_epoch", JVal.n p.voting_end_epoch),
    ("grace_epoch", JVal.n p.grace_epoch), ("status", JVal.s p.status),
    ("data", JVal.s p.data)]

/-- JSON string escaping of one character. -/
def escapeChar (c : Char) : List Char :=
  if c = '"' then ['\\', '"']
  else if c = '\\' then ['\\', '\\']
  else [c]

/-- JSON string escaping. -/
def escape (s : String) : String := String.mk ((s.data.map escapeChar).flatten)

/-- A JSON string literal. -/
def jstr (s : String) : String := "\"" ++ escape s ++ "\""

/-- Render a string-to-string object with its keys in list order, as
serde_json renders a `BTreeMap<String, String>`. -/
def renderStrObj (l : List (String × String)) : String :=
  "\x7b" ++ String.intercalate "," (l.map fun kv => jstr kv.1 ++ ":" ++ jstr kv.2) ++ "\x7d"

/-- Render one JSON value. -/
def JVal.render : JVal → String
  | .s v => jstr v
  | .n v => Nat.repr v
  | .m v => renderStrObj v

/-- Render an object with mixed values, keys in list order. -/
def renderObj (l : List (String × JVal)) : String :=
  "\x7b" ++ String.intercalate "," (l.map fun kv => jstr kv.1 ++ ":" ++ kv.2.render) ++ "\x7d"

/-- Render a JSON array from already-rendered elements. -/
def renderArr (l : List String) : String :=
  "[" ++ String.intercalate "," l ++ "]"

/-- Modelled from the spec: the full-precision base-10 rendering of a
voting-power total (the SDK's amount display). -/
def amountDisplay (x : Nat) : String := Nat.repr x

/-- Modelled from the spec: the decimal fixed-point rendering of a
commission value with six fractional digits (the SDK's `Dec` display). -/
def decDisplay (x : Nat) : String :=
  let f := Nat.repr (x % 1000000)
  Nat.repr (x / 1000000) ++ "." ++
    String.mk (List.replicate (6 - f.length) '0') ++ f

/-- The display string of a vote value, the `match vote.data` of
`votes_parse` in `src/lib.rs`. -/
def voteDataDisplay : ProposalVote → String
  | ProposalVote.Yay => "Yay"
  | ProposalVote.Nay => "Nay"
  | ProposalVote.Abstain => "Abstain"

/-- The output mapping of one vote, built by the three `map.insert`
calls of `votes_parse` in `src/lib.rs` into a `BTreeMap`. -/
def voteMap (v : Vote) : List (String × String) :=
  btreeInsert (btreeInsert (btreeInsert []
    "validator" (addressDisplay v.validator))
    "delegator" (addressDisplay v.delegator))
    "data" (voteDataDisplay v.data)

/-- The display label of a tally result, the `match result.result` of
`proposal_result_parse` in `src/lib.rs`. -/
def tallyResultDisplay : TallyResult → String
  | TallyResult.Passed => "Passed"
  | TallyResult.Rejected => "Rejected"

/-- The display label of a tally type, the `match result.tally_type` of
`proposal_result_parse` in `src/lib.rs`. -/
def tallyTypeDisplay : TallyType → String
  | TallyType.TwoThirds => "TwoThirds"
  | TallyType.OneHalfOverOneThird => "OneHalfOverOneThird"
  | TallyType.LessOneHalfOverOneThirdNay => "LessOneHalfOverOneThirdNay"

/-- The output mapping of a proposal result, built by the six
`map.insert` calls of `proposal_result_parse` in `src/lib.rs`. -/
def resultMap (r : ProposalResult) : List (String × String) :=
  btreeInsert (btreeInsert (btreeInsert (btreeInsert (btreeInsert
    (btreeInsert [] "result" (tallyResultDisplay r.result))
    "tally_type" (tallyTypeDisplay r.tally_type))
    "total_voting_power" (amountDisplay r.total_voting_power))
    "total_yay_power" (amountDisplay r.total_yay_power))
    "total_nay_power" (amountDisplay r.total_nay_power))
    "total_abstain_power" (amountDisplay r.total_abstain_power)

/-- The output mapping of a commission pair, built by the two
`map.insert` calls of `commission_pair_parse` in `src/lib.rs`. -/
def commissionMap (c : CommissionPair) : List (String × String) :=
  btreeInsert (btreeInsert []
    "commission_rate" (decDisplay c.commission_rate))
    "max_commission_change_per_epoch"
    (decDisplay c.max_commission_change_per_epoch)

/- ## The five entry-point operations of `src/lib.rs` -/

/-- `proposal_parse(data, current_epoch)`: decode a `StorageProposal`
from the whole buffer, build the `ProposalJson` record and serialize it;
a decode failure is surfaced as an error. -/
def proposal_parse (data : Bytes) (current_epoch : Nat) :
    Except String String :=
  match tryFromSlice readStorageProposal data with
  | none => Except.error "Decoding failed"
  | some p => Except.ok (renderObj (proposalJson p current_epoch).fields)

/-- `votes_parse(data)`: decode a `Vec<Vote>` from the whole buffer and
serialize the per-vote mappings in decode order. -/
def votes_parse (data : Bytes) : Except String String :=
  match tryFromSlice readVotes data with
  | none => Except.error "Decoding failed"
  | some votes =>
      Except.ok (renderArr (votes.map fun v => renderStrObj (voteMap v)))

/-- `proposal_result_parse(data)`: decode a `ProposalResult` from the
whole buffer and serialize its output mapping. -/
def proposal_result_parse (data : Bytes) : Except String String :=
  match tryFromSlice readProposalResult data with
  | none => Except.error "Decoding failed"
  | some r => Except.ok (renderStrObj (resultMap r))

/-- `commission_pair_parse(data)`: decode a `CommissionPair` from the
whole buffer and serialize its output mapping. -/
def commission_pair_parse (data : Bytes) : Except String String :=
  match tryFromSlice readCommissionPair data with
  | none => Except.error "Decoding failed"
  | some c => Except.ok (renderStrObj (commissionMap c))

/-- `address_parse(data)`: decode an `Address` from the whole buffer and
return its canonical text (a plain string, no mapping wrapper). -/
def address_parse (data : Bytes) : Except String String :=
  match tryFromSlice readAddress data with
  | none => Except.error "Decoding failed"
  | some a => Except.ok (addressDisplay a)

/-- Whether a call result is a success. -/
def isOk : Except String String → Bool
  | .ok _ => true
  | .error _ => false

/- ## Spec-side rendering rules (for refinement against the source)

These restate, from the specification's words, the rendering rules the
spec gives for the `data` field, to be compared with the source's
`format_proposal_data`. -/

/-- From the spec's words: a `PGFSteward` entry renders as
`"Add({address})"` or `"Remove({address})"`. -/
def specStewardEntryText : AddRemove Address → String
  | AddRemove.Add a => "Add(" ++ addressDisplay a ++ ")"
  | AddRemove.Remove a => "Remove(" ++ addressDisplay a ++ ")"

/-- From the spec's words: a `PGFPayment` entry renders as
`"Add({target})"` / `"Remove({target})"` for `Continuous` and
`"Retro({target})"` for `Retro`. -/
def specPaymentEntryText : PGFAction → String
  | PGFAction.Continuous (AddRemove.Add t) => "Add(" ++ targetDisplay t ++ ")"
  | PGFAction.Continuous (AddRemove.Remove t) => "Remove(" ++ targetDisplay t ++ ")"
  | PGFAction.Retro t => "Retro(" ++ targetDisplay t ++ ")"

/-- From the spec's words: the `data` rendering rules —
`Default(Some(h))` gives `"Hash: {h}"`, `Default(None)` the empty
string, and the PGF variants their entry renderings joined by `", "` in
list order. -/
def specDataText : ProposalType → String
  | ProposalType.Default (some h) => "Hash: " ++ hashDisplay h
  | ProposalType.Default none => ""
  | ProposalType.PGFSteward l =>
      String.intercalate ", " (l.map specStewardEntryText)
  | ProposalType.PGFPayment l =>
      String.intercalate ", " (l.map specPaymentEntryText)

/- ## Concrete fixtures used in closed statements -/

/-- A concrete well-formed proposal (the spec's §8 scenario epochs). -/
def pEx : StorageProposal :=
  ⟨1, ProposalType.Default none, ⟨[65]⟩, [], 10, 20, 25⟩

/-- A concrete well-formed vote. -/
def vEx : Vote := ⟨⟨[65]⟩, ⟨[66]⟩, ProposalVote.Yay⟩

/-- A concrete well-formed proposal result. -/
def rEx : ProposalResult :=
  ⟨TallyResult.Passed, TallyType.TwoThirds, 100, 60, 30, 10⟩

/-- A concrete well-formed commission pair. -/
def cEx : CommissionPair := ⟨1500000, 10000⟩

/-- A concrete well-formed address. -/
def aEx : Address := ⟨[72, 105]⟩

/- ## Basic lemmas about the combinators -/

theorem bindD_eq {α β : Type} (p : Decoder α) (f : α → Decoder β) (b : Bytes) :
    bindD p f b = match p b with
      | some (a, rest) => f a rest
      | none => none := rfl

theorem encLE_length (n x : Nat) : (encLE n x).length = n := by
  induction n generalizing x with
  | zero => rfl
  | succ n ih => simp [encLE, ih]

theorem leVal_encLE {n x : Nat} (h : x < 256 ^ n) : leVal (encLE n x) = x := by
  induction n generalizing x with
  | zero =>
    simp [encLE, leVal]
    omega
  | succ n ih =>
    have hdiv : x / 256 < 256 ^ n := by
      rw [Nat.div_lt_iff_lt_mul (by norm_num)]
      calc x < 256 ^ (n + 1) := h
        _ = 256 ^ n * 256 := by ring
    have := ih hdiv
    simp only [encLE, leVal, List.foldr_cons] at *
    omega

theorem readBytes_append (l r : Bytes) :
    readBytes l.length (l ++ r) = some (l, r) := by
  induction l with
  | nil => rfl
  | cons x xs ih =>
    simp [readBytes, bindD, readByte, ih, pureD]

theorem readLE_append {n x : Nat} (h : x < 256 ^ n) (r : Bytes) :
    readLE n (encLE n x ++ r) = some (x, r) := by
  have hb : readBytes n (encLE n x ++ r) = some (encLE n x, r) := by
    have hap := readBytes_append (encLE n x) r
    rwa [encLE_length] at hap
  simp [readLE, bindD, hb, pureD, leVal_encLE h]

theorem mono_pureD {α : Type} (a : α) : Mono (pureD a) := by
  intro b v r m h
  simp [pureD] at h ⊢
  simp [h]

theorem mono_failD {α : Type} : Mono (failD : Decoder α) := by
  intro b v r m h
  simp [failD] at h

theorem mono_readByte : Mono readByte := by
  intro b v r m h
  cases b with
  | nil => simp [readByte] at h
  | cons x xs =>
    simp [readByte] at h ⊢
    simp [h]

theorem mono_bindD {α β : Type} {p : Decoder α} {f : α → Decoder β}
    (hp : Mono p) (hf : ∀ a, Mono (f a)) : Mono (bindD p f) := by
  intro b v r m h
  rw [bindD_eq] at h
  rw [bindD_eq]
  cases hpb : p b with
  | none => rw [hpb] at h; exact absurd h (by simp)
  | some ar =>
    obtain ⟨a, rest⟩ := ar
    rw [hpb] at h
    rw [hp b a rest m hpb]
    exact hf a rest v r m h

theorem mono_readBytes (n : Nat) : Mono (readBytes n) := by
  induction n with
  | zero => exact mono_pureD []
  | succ n ih =>
    exact mono_bindD mono_readByte fun x =>
      mono_bindD ih fun l => mono_pureD (x :: l)

theorem mono_readLE (n : Nat) : Mono (readLE n) :=
  mono_bindD (mono_readBytes n) fun l => mono_pureD (leVal l)

theorem mono_readN {α : Type} {p : Decoder α} (hp : Mono p) (n : Nat) :
    Mono (readN p n) := by
  induction n with
  | zero => exact mono_pureD []
  | succ n ih =>
    exact mono_bindD hp fun a => mono_bindD ih fun l => mono_pureD (a :: l)

theorem mono_readVec {α : Type} {p : Decoder α} (hp : Mono p) :
    Mono (readVec p) :=
  mono_bindD (mono_readLE 4) fun n => mono_readN hp n

theorem mono_readOption {α : Type} {p : Decoder α} (hp : Mono p) :
    Mono (readOption p) := by
  refine mono_bindD mono_readByte fun t => ?_
  by_cases h0 : t = 0
  · simp only [readOption, h0, if_true]
    exact mono_pureD none
  · by_cases h1 : t = 1
    · simp only [h0, h1, if_false, if_true]
      exact mono_bindD hp fun a => mono_pureD (some a)
    · simp only [h0, h1, if_false]
      exact mono_failD

theorem mono_readStrBytes : Mono readStrBytes :=
  mono_bindD (mono_readLE 4) fun n => mono_readBytes n

/- ## Decode-encode laws: each decoder reads back the canonical wire form
of a well-formed value and leaves the trailing bytes untouched. -/

/-- Specialized decode-encode law for 8-byte scalars. -/
theorem readLE8_append {x : Nat} (h : x < 2 ^ 64) (r : Bytes) :
    readLE 8 (encLE 8 x ++ r) = some (x, r) :=
  readLE_append (by simpa using h) r

/-- Specialized decode-encode law for 32-byte scalars. -/
theorem readLE32_append {x : Nat} (h : x < 2 ^ 256) (r : Bytes) :
    readLE 32 (encLE 32 x ++ r) = some (x, r) :=
  readLE_append (by simpa using h) r

theorem readStrBytes_append {l : Bytes} (h : l.length < 2 ^ 32) (r : Bytes) :
    readStrBytes (encStrBytes l ++ r) = some (l, r) := by
  have hlen : readLE 4 (encLE 4 l.length ++ (l ++ r)) = some (l.length, l ++ r) :=
    readLE_append (by simpa using h) (l ++ r)
  simp [readStrBytes, readU32, encStrBytes, bindD, List.append_assoc, hlen,
    readBytes_append]

theorem readAddress_append {a : Address} (h : WFAddress a) (r : Bytes) :
    readAddress (encodeAddress a ++ r) = some (a, r) := by
  simp [readAddress, encodeAddress, bindD, readStrBytes_append h, pureD]

theorem readHash_append {h : Bytes} (hh : WFHash h) (r : Bytes) :
    readHash (h ++ r) = some (h, r) := by
  have := readBytes_append h r
  rwa [hh] at this

theorem readOptionHash_append {h : Option Bytes}
    (hh : ∀ x, h = some x → WFHash x) (r : Bytes) :
    readOption readHash (encodeOptionHash h ++ r) = some (h, r) := by
  cases h with
  | none => simp [readOption, encodeOptionHash, bindD, readByte, pureD]
  | some x =>
    simp [readOption, encodeOptionHash, bindD, readByte,
      readHash_append (hh x rfl), pureD]

theorem readAddRemove_append {α : Type} {p : Decoder α} {enc : α → Bytes}
    {WF : α → Prop} (hp : ∀ a, WF a → ∀ r, p (enc a ++ r) = some (a, r))
    {x : AddRemove α} (hx : WFAddRemove WF x) (r : Bytes) :
    readAddRemove p (encodeAddRemove enc x ++ r) = some (x, r) := by
  cases x with
  | Add a =>
    simp [readAddRemove, encodeAddRemove, bindD, readByte, hp a hx, pureD]
  | Remove a =>
    simp [readAddRemove, encodeAddRemove, bindD, readByte, hp a hx, pureD]

theorem readTarget_append {t : PGFTarget} (h : WFTarget t) (r : Bytes) :
    readTarget (encodeTarget t ++ r) = some (t, r) := by
  simp [readTarget, encodeTarget, bindD, readStrBytes_append h, pureD]

theorem readPGFAction_append {x : PGFAction} (hx : WFPGFAction x) (r : Bytes) :
    readPGFAction (encodePGFAction x ++ r) = some (x, r) := by
  cases x with
  | Continuous ar =>
    have har := readAddRemove_append
      (fun t ht r' => readTarget_append ht r') (x := ar) hx r
    simp [readPGFAction, encodePGFAction, bindD, readByte, har, pureD]
  | Retro t =>
    simp [readPGFAction, encodePGFAction, bindD, readByte,
      readTarget_append hx, pureD]

theorem readN_append {α : Type} {p : Decoder α} {f : α → Bytes}
    (l : List α) (h : ∀ a ∈ l, ∀ r, p (f a ++ r) = some (a, r)) (r : Bytes) :
    readN p l.length ((l.map f).flatten ++ r) = some (l, r) := by
  induction l with
  | nil => simp [readN, pureD]
  | cons x xs ih =>
    have hx := h x (by simp) ((xs.map f).flatten ++ r)
    have hxs := ih fun a ha r' => h a (by simp [ha]) r'
    simp only [List.map_cons, List.flatten_cons, List.length_cons,
      List.append_assoc] at *
    simp [readN, bindD, hx, hxs, pureD]

theorem readVec_append {α : Type} {p : Decoder α} {f : α → Bytes}
    {l : List α} (hlen : l.length < 2 ^ 32)
    (h : ∀ a ∈ l, ∀ r, p (f a ++ r) = some (a, r)) (r : Bytes) :
    readVec p (encodeVec f l ++ r) = some (l, r) := by
  have hl : readLE 4 (encLE 4 l.length ++ ((l.map f).flatten ++ r)) =
      some (l.length, (l.map f).flatten ++ r) :=
    readLE_append (by simpa using hlen) _
  simp [readVec, encodeVec, bindD, readU32, List.append_assoc, hl,
    readN_append l h r]

theorem readProposalType_append {t : ProposalType} (ht : WFProposalType t)
    (r : Bytes) : readProposalType (encodeProposalType t ++ r) = some (t, r) := by
  cases t with
  | Default h =>
    have hopt : readOption readHash (encodeOptionHash h ++ r) = some (h, r) := by
      refine readOptionHash_append (fun x hx => ?_) r
      cases h with
      | none => exact absurd hx (by simp)
      | some y =>
        obtain rfl : y = x := by simpa using hx
        exact ht
    simp [readProposalType, encodeProposalType, bindD, readByte, hopt, pureD]
  | PGFSteward l =>
    have hv := readVec_append (f := encodeAddRemove encodeAddress) ht.1
      (fun a ha r' => readAddRemove_append
        (fun x hx r'' => readAddress_append hx r'') (ht.2 a ha) r') r
    simp [readProposalType, encodeProposalType, bindD, readByte, hv, pureD]
  | PGFPayment l =>
    have hv := readVec_append (f := encodePGFAction) ht.1
      (fun a ha r' => readPGFAction_append (ht.2 a ha) r') r
    simp [readProposalType, encodeProposalType, bindD, readByte, hv, pureD]

theorem readContentEntry_append {kv : Bytes × Bytes} (h : WFContentEntry kv)
    (r : Bytes) : readContentEntry (encodeContentEntry kv ++ r) = some (kv, r) := by
  simp [readContentEntry, encodeContentEntry, bindD, List.append_assoc,
    readStrBytes_append h.1, readStrBytes_append h.2, pureD]

theorem readStorageProposal_append {p : StorageProposal}
    (h : WFStorageProposal p) (r : Bytes) :
    readStorageProposal (encodeStorageProposal p ++ r) = some (p, r) := by
  obtain ⟨hid, hty, hau, hcl, hce, hs, he, hg⟩ := h
  have h1 := fun r' => readLE8_append hid r'
  have h2 := fun r' => readProposalType_append hty r'
  have h3 := fun r' => readAddress_append hau r'
  have h4 := fun r' => readVec_append (f := encodeContentEntry) hcl
    (fun kv hkv r'' => readContentEntry_append (hce kv hkv) r'') r'
  have h5 := fun r' => readLE8_append hs r'
  have h6 := fun r' => readLE8_append he r'
  have h7 := fun r' => readLE8_append hg r'
  simp [readStorageProposal, encodeStorageProposal, bindD, readU64,
    readContent, List.append_assoc, h1, h2, h3, h4, h5, h6, h7, pureD]

theorem readProposalVote_append (d : ProposalVote) (r : Bytes) :
    readProposalVote (encodeProposalVote d ++ r) = some (d, r) := by
  cases d <;> simp [readProposalVote, encodeProposalVote, bindD, readByte, pureD]

theorem readVote_append {v : Vote} (h : WFVote v) (r : Bytes) :
    readVote (encodeVote v ++ r) = some (v, r) := by
  have h1 := fun r' => readAddress_append h.1 r'
  have h2 := fun r' => readAddress_append h.2 r'
  simp [readVote, encodeVote, bindD, List.append_assoc, h1, h2,
    readProposalVote_append, pureD]

theorem readVotes_append {l : List Vote} (h : WFVotes l) (r : Bytes) :
    readVotes (encodeVotes l ++ r) = some (l, r) :=
  readVec_append h.1 (fun v hv r' => readVote_append (h.2 v hv) r') r

theorem readTallyResult_append (t : TallyResult) (r : Bytes) :
    readTallyResult (encodeTallyResult t ++ r) = some (t, r) := by
  cases t <;> simp [readTallyResult, encodeTallyResult, bindD, readByte, pureD]

theorem readTallyType_append (t : TallyType) (r : Bytes) :
    readTallyType (encodeTallyType t ++ r) = some (t, r) := by
  cases t <;> simp [readTallyType, encodeTallyType, bindD, readByte, pureD]

theorem readProposalResult_append {x : ProposalResult}
    (h : WFProposalResult x) (r : Bytes) :
    readProposalResult (encodeProposalResult x ++ r) = some (x, r) := by
  obtain ⟨h1, h2, h3, h4⟩ := h
  have e1 := fun r' => readLE32_append h1 r'
  have e2 := fun r' => readLE32_append h2 r'
  have e3 := fun r' => readLE32_append h3 r'
  have e4 := fun r' => readLE32_append h4 r'
  simp [readProposalResult, encodeProposalResult, bindD, readAmount,
    List.append_assoc, readTallyResult_append, readTallyType_append,
    e1, e2, e3, e4, pureD]

theorem readCommissionPair_append {c : CommissionPair}
    (h : WFCommissionPair c) (r : Bytes) :
    readCommissionPair (encodeCommissionPair c ++ r) = some (c, r) := by
  have e1 := fun r' => readLE32_append h.1 r'
  have e2 := fun r' => readLE32_append h.2 r'
  simp [readCommissionPair, encodeCommissionPair, bindD, readDec,
    List.append_assoc, e1, e2, pureD]

/- ## Monotonicity of the domain decoders -/

theorem mono_readAddress : Mono readAddress :=
  mono_bindD mono_readStrBytes fun l => mono_pureD ⟨l⟩

theorem mono_readHash : Mono readHash := mono_readBytes 32

theorem mono_ite {α : Type} {c : Prop} [Decidable c] {p q : Decoder α}
    (hp : Mono p) (hq : Mono q) : Mono (if c then p else q) := by
  by_cases h : c <;> simp [h] <;> assumption

theorem mono_readAddRemove {α : Type} {p : Decoder α} (hp : Mono p) :
    Mono (readAddRemove p) :=
  mono_bindD mono_readByte fun t =>
    mono_ite (mono_bindD hp fun a => mono_pureD (AddRemove.Add a))
      (mono_ite (mono_bindD hp fun a => mono_pureD (AddRemove.Remove a))
        mono_failD)

theorem mono_readTarget : Mono readTarget :=
  mono_bindD mono_readStrBytes fun l => mono_pureD ⟨l⟩

theorem mono_readPGFAction : Mono readPGFAction :=
  mono_bindD mono_readByte fun t =>
    mono_ite (mono_bindD (mono_readAddRemove mono_readTarget) fun ar =>
        mono_pureD (PGFAction.Continuous ar))
      (mono_ite (mono_bindD mono_readTarget fun tg =>
          mono_pureD (PGFAction.Retro tg)) mono_failD)

theorem mono_readProposalType : Mono readProposalType :=
  mono_bindD mono_readByte fun t =>
    mono_ite (mono_bindD (mono_readOption mono_readHash) fun h =>
        mono_pureD (ProposalType.Default h))
      (mono_ite (mono_bindD (mono_readVec (mono_readAddRemove
          mono_readAddress)) fun l => mono_pureD (ProposalType.PGFSteward l))
        (mono_ite (mono_bindD (mono_readVec mono_readPGFAction) fun l =>
            mono_pureD (ProposalType.PGFPayment l)) mono_failD))

theorem mono_readContentEntry : Mono readContentEntry :=
  mono_bindD mono_readStrBytes fun k =>
    mono_bindD mono_readStrBytes fun v => mono_pureD (k, v)

theorem mono_readStorageProposal : Mono readStorageProposal :=
  mono_bindD (mono_readLE 8) fun i =>
  mono_bindD mono_readProposalType fun ty =>
  mono_bindD mono_readAddress fun au =>
  mono_bindD (mono_readVec mono_readContentEntry) fun c =>
  mono_bindD (mono_readLE 8) fun s =>
  mono_bindD (mono_readLE 8) fun e =>
  mono_bindD (mono_readLE 8) fun g =>
  mono_pureD ⟨i, ty, au, c, s, e, g⟩

theorem mono_readProposalVote : Mono readProposalVote :=
  mono_bindD mono_readByte fun t =>
    mono_ite (mono_pureD ProposalVote.Yay)
      (mono_ite (mono_pureD ProposalVote.Nay)
        (mono_ite (mono_pureD ProposalVote.Abstain) mono_failD))

theorem mono_readVote : Mono readVote :=
  mono_bindD mono_readAddress fun va =>
  mono_bindD mono_readAddress fun de =>
  mono_bindD mono_readProposalVote fun d =>
  mono_pureD ⟨va, de, d⟩

theorem mono_readVotes : Mono readVotes := mono_readVec mono_readVote

theorem mono_readTallyResult : Mono readTallyResult :=
  mono_bindD mono_readByte fun t =>
    mono_ite (mono_pureD TallyResult.Passed)
      (mono_ite (mono_pureD TallyResult.Rejected) mono_failD)

theorem mono_readTallyType : Mono readTallyType :=
  mono_bindD mono_readByte fun t =>
    mono_ite (mono_pureD TallyType.TwoThirds)
      (mono_ite (mono_pureD TallyType.OneHalfOverOneThird)
        (mono_ite (mono_pureD TallyType.LessOneHalfOverOneThirdNay)
          mono_failD))

theorem mono_readProposalResult : Mono readProposalResult :=
  mono_bindD mono_readTallyResult fun re =>
  mono_bindD mono_readTallyType fun tt =>
  mono_bindD (mono_readLE 32) fun vp =>
  mono_bindD (mono_readLE 32) fun yp =>
  mono_bindD (mono_readLE 32) fun np =>
  mono_bindD (mono_readLE 32) fun ap =>
  mono_pureD ⟨re, tt, vp, yp, np, ap⟩

theorem mono_readCommissionPair : Mono readCommissionPair :=
  mono_bindD (mono_readLE 32) fun cr =>
  mono_bindD (mono_readLE 32) fun mc =>
  mono_pureD ⟨cr, mc⟩

/- ## Laws of whole-buffer decoding -/

/-- A decoder satisfying the decode-encode law accepts the exact
canonical buffer. -/
theorem tryFromSlice_ok {α : Type} {p : Decoder α} {c : Bytes} {v : α}
    (h : ∀ r, p (c ++ r) = some (v, r)) : tryFromSlice p c = some v := by
  have hc : p c = some (v, []) := by
    have h0 := h []
    rwa [List.append_nil] at h0
  simp [tryFromSlice, hc]

/-- Appending a non-empty tail to a canonical buffer makes whole-buffer
decoding fail. -/
theorem tryFromSlice_trailing {α : Type} {p : Decoder α} {c : Bytes} {v : α}
    (h : ∀ r, p (c ++ r) = some (v, r)) {m : Bytes} (hm : m ≠ []) :
    tryFromSlice p (c ++ m) = none := by
  cases m with
  | nil => exact absurd rfl hm
  | cons x xs => simp [tryFromSlice, h (x :: xs)]

/-- Truncating a canonical buffer by at least one byte makes whole-buffer
decoding of a monotone decoder fail. -/
theorem tryFromSlice_take {α : Type} {p : Decoder α} {c : Bytes} {v : α}
    (hm : Mono p) (h : ∀ r, p (c ++ r) = some (v, r)) {k : Nat}
    (hk : k < c.length) : tryFromSlice p (c.take k) = none := by
  have hc : p c = some (v, []) := by
    have h0 := h []
    rwa [List.append_nil] at h0
  unfold tryFromSlice
  cases hp : p (c.take k) with
  | none => rfl
  | some wr =>
    obtain ⟨w, rest⟩ := wr
    exfalso
    have h2 := hm _ w rest (c.drop k) hp
    rw [List.take_append_drop, hc] at h2
    have h3 : rest ++ c.drop k = [] := by
      have h4 := Option.some.inj h2
      exact (congrArg Prod.snd h4).symm
    rcases List.append_eq_nil.mp h3 with ⟨-, hdrop⟩
    have : c.length ≤ k := by
      have := congrArg List.length hdrop
      simp at this
      omega
    omega

/- ## Success-path behaviour of the five operations -/

theorem proposal_parse_wf {p : StorageProposal} (h : WFStorageProposal p)
    (current_epoch : Nat) :
    proposal_parse (encodeStorageProposal p) current_epoch =
      Except.ok (renderObj (proposalJson p current_epoch).fields) := by
  rw [proposal_parse, tryFromSlice_ok (fun r => readStorageProposal_append h r)]

theorem votes_parse_wf {l : List Vote} (h : WFVotes l) :
    votes_parse (encodeVotes l) =
      Except.ok (renderArr (l.map fun v => renderStrObj (voteMap v))) := by
  rw [votes_parse, tryFromSlice_ok (fun r => readVotes_append h r)]

theorem proposal_result_parse_wf {r : ProposalResult}
    (h : WFProposalResult r) :
    proposal_result_parse (encodeProposalResult r) =
      Except.ok (renderStrObj (resultMap r)) := by
  rw [proposal_result_parse,
    tryFromSlice_ok (fun t => readProposalResult_append h t)]

theorem commission_pair_parse_wf {c : CommissionPair}
    (h : WFCommissionPair c) :
    commission_pair_parse (encodeCommissionPair c) =
      Except.ok (renderStrObj (commissionMap c)) := by
  rw [commission_pair_parse,
    tryFromSlice_ok (fun t => readCommissionPair_append h t)]

theorem address_parse_wf {a : Address} (h : WFAddress a) :
    address_parse (encodeAddress a) = Except.ok (addressDisplay a) := by
  rw [address_parse, tryFromSlice_ok (fun t => readAddress_append h t)]

/- ## Claims -/

/-- C1 (amended): for every well-formed proposal encoding, the status
field produced by `proposal_parse` is a pure function of
`(current_epoch, voting_start_epoch, voting_end_epoch, grace_epoch)`:
below the voting start it is the not-yet-started state, inside the
voting window the in-progress state, and — under the producer invariant
`voting_start_epoch ≤ voting_end_epoch ≤ grace_epoch` — from the grace
epoch on it is the single terminal "ended" state, independent of any
tally outcome (the operation receives no tally). -/
theorem C1_status_from_epochs :
    (∀ p e, WFStorageProposal p →
      proposal_parse (encodeStorageProposal p) e =
        Except.ok (renderObj (proposalJson p e).fields)) ∧
    (∀ p e, (proposalJson p e).status =
      statusDisplay (statusOf e p.voting_start_epoch p.voting_end_epoch
        p.grace_epoch)) ∧
    (∀ p e, e < p.voting_start_epoch →
      (proposalJson p e).status = "pending") ∧
    (∀ p e, p.voting_start_epoch ≤ e → e < p.voting_end_epoch →
      (proposalJson p e).status = "on-going") ∧
    (∀ p e, p.voting_start_epoch ≤ p.voting_end_epoch →
      p.voting_end_epoch ≤ p.grace_epoch → p.grace_epoch ≤ e →
      (proposalJson p e).status = "ended") := by
  refine ⟨fun p e h => proposal_parse_wf h e, fun p e => rfl, ?_, ?_, ?_⟩
  · intro p e h
    simp [proposalJson, StorageProposal.get_status, statusOf, statusDisplay, h]
  · intro p e h1 h2
    have hns : ¬ e < p.voting_start_epoch := by omega
    simp [proposalJson, StorageProposal.get_status, statusOf, statusDisplay,
      hns, h2]
  · intro p e h1 h2 h3
    have hns : ¬ e < p.voting_start_epoch := by omega
    have hne : ¬ e < p.voting_end_epoch := by omega
    simp [proposalJson, StorageProposal.get_status, statusOf, statusDisplay,
      hns, hne]

/-- C1 witness: the spec's own scenario epochs (10, 20, 25) at current
epochs 5, 15 and 30 give the pending, on-going and ended states. -/
theorem C1_status_from_epochs_witness :
    (proposalJson pEx 5).status = "pending" ∧
    (proposalJson pEx 15).status = "on-going" ∧
    (proposalJson pEx 30).status = "ended" :=
  ⟨C1_status_from_epochs.2.2.1 pEx 5 (by decide),
    C1_status_from_epochs.2.2.2.1 pEx 15 (by decide) (by decide),
    C1_status_from_epochs.2.2.2.2 pEx 30 (by decide) (by decide) (by decide)⟩

/-- C1 counterexample: past the grace epoch the status rendered is the
fixed string "ended" — a single terminal state carrying no tally
outcome; it is not one of the tally-outcome labels, and two different
proposals read at the same epochs produce the identical terminal
status. -/
theorem C1_status_counterexample :
    (proposalJson ⟨7, ProposalType.Default none, ⟨[67]⟩, [], 10, 20, 25⟩
      30).status = "ended" ∧
    (proposalJson ⟨8, ProposalType.PGFSteward [], ⟨[68]⟩, [], 10, 20, 25⟩
      30).status = "ended" ∧
    "ended" ≠ tallyResultDisplay TallyResult.Passed ∧
    "ended" ≠ tallyResultDisplay TallyResult.Rejected :=
  ⟨rfl, rfl, by decide, by decide⟩

/-- C2: every strict front portion of a well-formed encoding is a decode
error for each of the five operations, and the empty buffer is a decode
error for all five record kinds. -/
theorem C2_short_input_fails :
    (∀ p k e, WFStorageProposal p → k < (encodeStorageProposal p).length →
      isOk (proposal_parse ((encodeStorageProposal p).take k) e) = false) ∧
    (∀ l k, WFVotes l → k < (encodeVotes l).length →
      isOk (votes_parse ((encodeVotes l).take k)) = false) ∧
    (∀ r k, WFProposalResult r → k < (encodeProposalResult r).length →
      isOk (proposal_result_parse ((encodeProposalResult r).take k)) = false) ∧
    (∀ c k, WFCommissionPair c → k < (encodeCommissionPair c).length →
      isOk (commission_pair_parse ((encodeCommissionPair c).take k)) = false) ∧
    (∀ a k, WFAddress a → k < (encodeAddress a).length →
      isOk (address_parse ((encodeAddress a).take k)) = false) ∧
    (∀ e, isOk (proposal_parse [] e) = false) ∧
    isOk (votes_parse []) = false ∧
    isOk (proposal_result_parse []) = false ∧
    isOk (commission_pair_parse []) = false ∧
    isOk (address_parse []) = false := by
  refine ⟨?_, ?_, ?_, ?_, ?_, fun e => rfl, rfl, rfl, rfl, rfl⟩
  · intro p k e hp hk
    rw [proposal_parse, tryFromSlice_take mono_readStorageProposal
      (fun t => readStorageProposal_append hp t) hk]
    rfl
  · intro l k hl hk
    rw [votes_parse, tryFromSlice_take mono_readVotes
      (fun t => readVotes_append hl t) hk]
    rfl
  · intro r k hr hk
    rw [proposal_result_parse, tryFromSlice_take mono_readProposalResult
      (fun t => readProposalResult_append hr t) hk]
    rfl
  · intro c k hc hk
    rw [commission_pair_parse, tryFromSlice_take mono_readCommissionPair
      (fun t => readCommissionPair_append hc t) hk]
    rfl
  · intro a k ha hk
    rw [address_parse, tryFromSlice_take mono_readAddress
      (fun t => readAddress_append ha t) hk]
    rfl

/-- C2 witness: concrete truncations (and the empty buffer) fail for
each operation. -/
theorem C2_short_input_fails_witness :
    isOk (proposal_parse ((encodeStorageProposal pEx).take 3) 0) = false ∧
    isOk (votes_parse ((encodeVotes [vEx]).take 2)) = false ∧
    isOk (proposal_result_parse ((encodeProposalResult rEx).take 5)) = false ∧
    isOk (commission_pair_parse ((encodeCommissionPair cEx).take 1)) = false ∧
    isOk (address_parse ((encodeAddress aEx).take 4)) = false ∧
    isOk (proposal_parse [] 0) = false :=
  ⟨C2_short_input_fails.1 pEx 3 0 (by norm_num [pEx, WFStorageProposal, WFProposalType, WFAddress]) (by decide),
    C2_short_input_fails.2.1 [vEx] 2 (by norm_num [vEx, WFVotes, WFVote, WFAddress]) (by decide),
    C2_short_input_fails.2.2.1 rEx 5 (by norm_num [rEx, WFProposalResult]) (by decide),
    C2_short_input_fails.2.2.2.1 cEx 1 (by norm_num [cEx, WFCommissionPair]) (by decide),
    C2_short_input_fails.2.2.2.2.1 aEx 4 (by norm_num [aEx, WFAddress]) (by decide),
    C2_short_input_fails.2.2.2.2.2.1 0⟩

/-- C3: appending any non-empty trailing bytes to a well-formed encoding
makes every one of the five operations fail — each parses its buffer as
exactly one record, with no partial success. -/
theorem C3_trailing_bytes_fail :
    (∀ p m e, WFStorageProposal p → m ≠ [] →
      isOk (proposal_parse (encodeStorageProposal p ++ m) e) = false) ∧
    (∀ l m, WFVotes l → m ≠ [] →
      isOk (votes_parse (encodeVotes l ++ m)) = false) ∧
    (∀ r m, WFProposalResult r → m ≠ [] →
      isOk (proposal_result_parse (encodeProposalResult r ++ m)) = false) ∧
    (∀ c m, WFCommissionPair c → m ≠ [] →
      isOk (commission_pair_parse (encodeCommissionPair c ++ m)) = false) ∧
    (∀ a m, WFAddress a → m ≠ [] →
      isOk (address_parse (encodeAddress a ++ m)) = false) := by
  refine ⟨?_, ?_, ?_, ?_, ?_⟩
  · intro p m e hp hm
    rw [proposal_parse, tryFromSlice_trailing
      (fun t => readStorageProposal_append hp t) hm]
    rfl
  · intro l m hl hm
    rw [votes_parse, tryFromSlice_trailing
      (fun t => readVotes_append hl t) hm]
    rfl
  · intro r m hr hm
    rw [proposal_result_parse, tryFromSlice_trailing
      (fun t => readProposalResult_append hr t) hm]
    rfl
  · intro c m hc hm
    rw [commission_pair_parse, tryFromSlice_trailing
      (fun t => readCommissionPair_append hc t) hm]
    rfl
  · intro a m ha hm
    rw [address_parse, tryFromSlice_trailing
      (fun t => readAddress_append ha t) hm]
    rfl

/-- C3 witness: one trailing zero byte after a concrete well-formed
encoding fails for each operation. -/
theorem C3_trailing_bytes_fail_witness :
    isOk (proposal_parse (encodeStorageProposal pEx ++ [0]) 0) = false ∧
    isOk (votes_parse (encodeVotes [vEx] ++ [0])) = false ∧
    isOk (proposal_result_parse (encodeProposalResult rEx ++ [0])) = false ∧
    isOk (commission_pair_parse (encodeCommissionPair cEx ++ [0])) = false ∧
    isOk (address_parse (encodeAddress aEx ++ [0])) = false :=
  ⟨C3_trailing_bytes_fail.1 pEx [0] 0 (by norm_num [pEx, WFStorageProposal, WFProposalType, WFAddress]) (by decide),
    C3_trailing_bytes_fail.2.1 [vEx] [0] (by norm_num [vEx, WFVotes, WFVote, WFAddress]) (by decide),
    C3_trailing_bytes_fail.2.2.1 rEx [0] (by norm_num [rEx, WFProposalResult]) (by decide),
    C3_trailing_bytes_fail.2.2.2.1 cEx [0] (by norm_num [cEx, WFCommissionPair]) (by decide),
    C3_trailing_bytes_fail.2.2.2.2 aEx [0] (by norm_num [aEx, WFAddress]) (by decide)⟩

/-- C4: the data field rendered by `proposal_parse` follows the spec's
rules exactly — `Default(Some(h))` gives `"Hash: {h}"`, `Default(None)`
the empty string, and the PGF variants their per-entry renderings joined
by `", "` preserving list order. -/
theorem C4_data_rendering :
    (∀ h, format_proposal_data (ProposalType.Default (some h)) =
      "Hash: " ++ hashDisplay h) ∧
    format_proposal_data (ProposalType.Default none) = "" ∧
    (∀ l, format_proposal_data (ProposalType.PGFSteward l) =
      String.intercalate ", " (l.map specStewardEntryText)) ∧
    (∀ l, format_proposal_data (ProposalType.PGFPayment l) =
      String.intercalate ", " (l.map specPaymentEntryText)) ∧
    (∀ p e, (proposalJson p e).data = format_proposal_data p.type) := by
  refine ⟨fun h => rfl, rfl, ?_, ?_, fun p e => rfl⟩
  · intro l
    simp only [format_proposal_data]
    congr 1
  · intro l
    simp only [format_proposal_data]
    congr 1
    apply List.map_congr_left
    intro a ha
    rcases a with ar | t
    · cases ar <;> rfl
    · rfl

/-- C5 (amended): every output's key order is fixed and deterministic —
the proposal object uses the struct's declared field order, while the
vote, proposal-result and commission mappings are `BTreeMap`s whose keys
appear in lexicographic order (for a vote: data, delegator, validator),
so output is diff-stable across runs. -/
theorem C5_key_order :
    (∀ v, (voteMap v).map Prod.fst = ["data", "delegator", "validator"]) ∧
    (∀ r, (resultMap r).map Prod.fst = ["result", "tally_type",
      "total_abstain_power", "total_nay_power", "total_voting_power",
      "total_yay_power"]) ∧
    (∀ c, (commissionMap c).map Prod.fst =
      ["commission_rate", "max_commission_change_per_epoch"]) ∧
    (∀ p e, (proposalJson p e).fields.map Prod.fst = ["id",
      "proposal_type", "author", "content", "voting_start_epoch",
      "voting_end_epoch", "grace_epoch", "status", "data"]) :=
  ⟨fun v => rfl, fun r => rfl, fun c => rfl, fun p e => rfl⟩

/-- C5 counterexample: on a concrete vote the serialized object's keys
appear in the order data, delegator, validator — not in the declared
order validator, delegator, data the claim states. -/
theorem C5_key_order_counterexample :
    votes_parse (encodeVotes [vEx]) = Except.ok
      "[\x7b\"data\":\"Yay\",\"delegator\":\"B\",\"validator\":\"A\"\x7d]" ∧
    (voteMap vEx).map Prod.fst ≠ ["validator", "delegator", "data"] :=
  ⟨rfl, by decide⟩

/-- C6: a decoded proposal result maps to `result` in Passed/Rejected,
`tally_type` among the three exact tally labels, and the four power
totals rendered as full-precision base-10 integer strings. -/
theorem C6_result_rendering :
    ∀ r : ProposalResult, WFProposalResult r →
      proposal_result_parse (encodeProposalResult r) =
        Except.ok (renderStrObj (resultMap r)) ∧
      resultMap r = [("result", tallyResultDisplay r.result),
        ("tally_type", tallyTypeDisplay r.tally_type),
        ("total_abstain_power", Nat.repr r.total_abstain_power),
        ("total_nay_power", Nat.repr r.total_nay_power),
        ("total_voting_power", Nat.repr r.total_voting_power),
        ("total_yay_power", Nat.repr r.total_yay_power)] ∧
      (tallyResultDisplay r.result = "Passed" ∨
        tallyResultDisplay r.result = "Rejected") ∧
      (tallyTypeDisplay r.tally_type = "TwoThirds" ∨
        tallyTypeDisplay r.tally_type = "OneHalfOverOneThird" ∨
        tallyTypeDisplay r.tally_type = "LessOneHalfOverOneThirdNay") := by
  intro r hr
  refine ⟨proposal_result_parse_wf hr, rfl, ?_, ?_⟩
  · cases hc : r.result <;> simp [tallyResultDisplay]
  · cases hc : r.tally_type <;> simp [tallyTypeDisplay]

/-- C6 witness: the concrete proposal result round-trips and renders
with the exact labels and full-precision totals. -/
theorem C6_result_rendering_witness :
    proposal_result_parse (encodeProposalResult rEx) =
      Except.ok (renderStrObj (resultMap rEx)) ∧
    resultMap rEx = [("result", tallyResultDisplay rEx.result),
      ("tally_type", tallyTypeDisplay rEx.tally_type),
      ("total_abstain_power", Nat.repr rEx.total_abstain_power),
      ("total_nay_power", Nat.repr rEx.total_nay_power),
      ("total_voting_power", Nat.repr rEx.total_voting_power),
      ("total_yay_power", Nat.repr rEx.total_yay_power)] ∧
    (tallyResultDisplay rEx.result = "Passed" ∨
      tallyResultDisplay rEx.result = "Rejected") ∧
    (tallyTypeDisplay rEx.tally_type = "TwoThirds" ∨
      tallyTypeDisplay rEx.tally_type = "OneHalfOverOneThird" ∨
      tallyTypeDisplay rEx.tally_type = "LessOneHalfOverOneThirdNay") :=
  C6_result_rendering rEx (by norm_num [rEx, WFProposalResult])

/-- C7: a well-formed vote-sequence encoding decodes to one mapping per
vote with the keys data, delegator, validator, the data value among
Yay/Nay/Abstain, array order equal to decode order, and the empty
sequence giving the empty array rather than an error. -/
theorem C7_votes_shape :
    (∀ l, WFVotes l → votes_parse (encodeVotes l) =
      Except.ok (renderArr (l.map fun v => renderStrObj (voteMap v)))) ∧
    (∀ v, voteMap v = [("data", voteDataDisplay v.data),
      ("delegator", addressDisplay v.delegator),
      ("validator", addressDisplay v.validator)]) ∧
    (∀ v : Vote, voteDataDisplay v.data = "Yay" ∨
      voteDataDisplay v.data = "Nay" ∨ voteDataDisplay v.data = "Abstain") ∧
    votes_parse (encodeVotes []) = Except.ok "[]" := by
  refine ⟨fun l hl => votes_parse_wf hl, fun v => rfl, ?_, rfl⟩
  intro v
  cases hc : v.data <;> simp [voteDataDisplay]

/-- C7 witness: a concrete one-vote sequence decodes to the one-element
array of its mapping. -/
theorem C7_votes_shape_witness :
    votes_parse (encodeVotes [vEx]) =
      Except.ok (renderArr ([vEx].map fun v => renderStrObj (voteMap v))) :=
  C7_votes_shape.1 [vEx] (by norm_num [vEx, WFVotes, WFVote, WFAddress])

/-- C8: for every well-formed proposal encoding and every current epoch,
the output object of `proposal_parse` has exactly the keys id,
proposal_type, author, content, voting_start_epoch, voting_end_epoch,
grace_epoch, status, data, in that order, and no others. -/
theorem C8_proposal_keys :
    (∀ p e, (proposalJson p e).fields.map Prod.fst = ["id",
      "proposal_type", "author", "content", "voting_start_epoch",
      "voting_end_epoch", "grace_epoch", "status", "data"] ∧
      (proposalJson p e).fields.length = 9) ∧
    (∀ p e, WFStorageProposal p →
      proposal_parse (encodeStorageProposal p) e =
        Except.ok (renderObj (proposalJson p e).fields)) :=
  ⟨fun p e => ⟨rfl, rfl⟩, fun p e h => proposal_parse_wf h e⟩

/-- C8 witness: the concrete proposal's output is the rendering of its
nine declared fields. -/
theorem C8_proposal_keys_witness :
    proposal_parse (encodeStorageProposal pEx) 5 =
      Except.ok (renderObj (proposalJson pEx 5).fields) :=
  C8_proposal_keys.2 pEx 5 (by norm_num [pEx, WFStorageProposal, WFProposalType, WFAddress])

/-- C9: each of the five operations is deterministic — identical input
bytes (and identical current epoch for `proposal_parse`) give identical
results, on success and on failure alike. -/
theorem C9_deterministic :
    (∀ d1 d2 e1 e2, d1 = d2 → e1 = e2 →
      proposal_parse d1 e1 = proposal_parse d2 e2) ∧
    (∀ d1 d2 : Bytes, d1 = d2 → votes_parse d1 = votes_parse d2) ∧
    (∀ d1 d2 : Bytes, d1 = d2 →
      proposal_result_parse d1 = proposal_result_parse d2) ∧
    (∀ d1 d2 : Bytes, d1 = d2 →
      commission_pair_parse d1 = commission_pair_parse d2) ∧
    (∀ d1 d2 : Bytes, d1 = d2 → address_parse d1 = address_parse d2) := by
  refine ⟨?_, ?_, ?_, ?_, ?_⟩ <;> intro d1 d2
  · intro e1 e2 hd he
    rw [hd, he]
  all_goals intro hd; rw [hd]

/-- C9 witness: two calls on the same concrete bytes agree. -/
theorem C9_deterministic_witness :
    proposal_parse (encodeStorageProposal pEx) 5 =
      proposal_parse (encodeStorageProposal pEx) 5 ∧
    votes_parse (encodeVotes [vEx]) = votes_parse (encodeVotes [vEx]) :=
  ⟨C9_deterministic.1 (encodeStorageProposal pEx) (encodeStorageProposal pEx)
      5 5 rfl rfl,
    C9_deterministic.2.1 (encodeVotes [vEx]) (encodeVotes [vEx]) rfl⟩

/-- C10: a PGFSteward proposal with an empty entry list and a PGFPayment
proposal with an empty action list both render the data field as the
empty string, exactly as Default(None) does, so an empty data string
does not identify which of the three was decoded. -/
theorem C10_empty_data_ambiguous :
    format_proposal_data (ProposalType.PGFSteward []) = "" ∧
    format_proposal_data (ProposalType.PGFPayment []) = "" ∧
    format_proposal_data (ProposalType.Default none) = "" ∧
    (proposalJson ⟨1, ProposalType.PGFSteward [], ⟨[65]⟩, [], 10, 20, 25⟩
        0).data =
      (proposalJson ⟨1, ProposalType.Default none, ⟨[65]⟩, [], 10, 20, 25⟩
        0).data ∧
    (proposalJson ⟨1, ProposalType.PGFPayment [], ⟨[65]⟩, [], 10, 20, 25⟩
        0).data =
      (proposalJson ⟨1, ProposalType.Default none, ⟨[65]⟩, [], 10, 20, 25⟩
        0).data :=
  ⟨rfl, rfl, rfl, rfl, rfl⟩

end NamadaQuery
